import Mathlib

/-!
Verification development for the election-spark voting application.

The definitions below are a shallow embedding of the parts of the
repository that carry logic: the storage schema and its row-level
security policies (supabase/migrations), the client-side tally and
leader computation (ElectionResults.tsx, LiveVoteCounter.tsx,
VotingAnalytics.tsx), the vote-cast handlers (VotingInterface.tsx and
the Elections page), the profile-creation trigger and the self-service
promotion helper, and the rate limiter hook (useRateLimit.tsx).
-/

namespace ElectionSpark

/-- Role of a profile, from the user_role enum ('admin', 'voter') in the
migration that created the profiles table. -/
inductive Role where
  | admin
  | voter
deriving DecidableEq, Repr

/-- A row of public.profiles (key fields only: user_id is UNIQUE, role
defaults to voter). -/
structure Profile where
  user_id : String
  role : Role
deriving DecidableEq, Repr

/-- A row of public.elections (key fields only). -/
structure Election where
  id : String
  title : String
  is_open : Bool
  created_by : String
deriving DecidableEq, Repr

/-- A row of public.options. -/
structure Opt where
  id : String
  election_id : String
  name : String
deriving DecidableEq, Repr

/-- A row of public.votes. The table carries the constraint
UNIQUE(election_id, user_id). -/
structure Vote where
  id : String
  election_id : String
  option_id : String
  user_id : String
deriving DecidableEq, Repr

/-- The stored state: the four tables owned by the storage platform. -/
structure DB where
  profiles : List Profile
  elections : List Election
  options : List Opt
  votes : List Vote
deriving Repr

/-- get_user_role(user_uuid): SELECT role FROM public.profiles WHERE
user_id = user_uuid (user_id is UNIQUE, so the first match is the only
match). -/
def get_user_role (db : DB) (uid : String) : Option Role :=
  (db.profiles.find? fun p => p.user_id == uid).map Profile.role

/-- Failure modes of a vote INSERT at the storage tier. -/
inductive InsertError where
  | policyViolation
  | uniqueViolation
deriving DecidableEq, Repr

/-- WITH CHECK clause of the policy "Voters can insert their vote":
auth.uid() = user_id AND EXISTS (SELECT 1 FROM public.elections WHERE
elections.id = votes.election_id AND elections.is_open = true). -/
def votesInsertPolicy (db : DB) (uid : String) (v : Vote) : Bool :=
  uid == v.user_id &&
    db.elections.any fun e => e.id == v.election_id && e.is_open

/-- The UNIQUE(election_id, user_id) constraint on public.votes: the new
row must not collide with any stored row on that pair. -/
def uniqueConstraintOk (votes : List Vote) (v : Vote) : Bool :=
  votes.all fun w => !(w.election_id == v.election_id && w.user_id == v.user_id)

/-- A vote INSERT as the storage tier executes it: the row-level security
WITH CHECK must accept the row and the uniqueness constraint must hold;
otherwise the insert fails and no row is written. -/
def insertVote (db : DB) (uid : String) (v : Vote) : Except InsertError DB :=
  if !votesInsertPolicy db uid v then .error .policyViolation
  else if !uniqueConstraintOk db.votes v then .error .uniqueViolation
  else .ok { db with votes := db.votes ++ [v] }

/-- One attempt in a serialized sequence of vote-cast operations: a
failed insert leaves the database unchanged. -/
def castStep (db : DB) (r : String × Vote) : DB :=
  match insertVote db r.1 r.2 with
  | .ok db2 => db2
  | .error _ => db

/-- Any (serialized) sequence of vote-cast attempts, each tagged with the
authenticated user id issuing it. Concurrent submissions are serialized
by the storage engine, so they are some such sequence. -/
def castMany (db : DB) (reqs : List (String × Vote)) : DB :=
  reqs.foldl castStep db

/-- Number of stored Vote rows with the given (election_id, user_id). -/
def votesFor (votes : List Vote) (e u : String) : Nat :=
  (votes.filter fun v => v.election_id == e && v.user_id == u).length

lemma votesFor_append_single (votes : List Vote) (v : Vote) (e u : String) :
    votesFor (votes ++ [v]) e u =
      votesFor votes e u + (if v.election_id = e ∧ v.user_id = u then 1 else 0) := by
  by_cases h : v.election_id = e ∧ v.user_id = u
  · simp [votesFor, List.filter_append, h]
  · simp only [votesFor, List.filter_append, List.length_append, if_neg h]
    have : (v.election_id == e && v.user_id == u) = false := by
      simp only [Bool.and_eq_false_iff, beq_eq_false_iff_ne, ne_eq]
      tauto
    simp [List.filter, this]

lemma uniqueOk_votesFor_zero (votes : List Vote) (v : Vote)
    (h : uniqueConstraintOk votes v = true) :
    votesFor votes v.election_id v.user_id = 0 := by
  simp only [uniqueConstraintOk, List.all_eq_true] at h
  simp only [votesFor, List.length_eq_zero, List.filter_eq_nil_iff]
  intro w hw
  have hwv := h w hw
  simp only [Bool.not_eq_true', Bool.and_eq_false_iff, beq_eq_false_iff_ne, ne_eq] at hwv
  simp only [Bool.and_eq_true, beq_iff_eq, not_and]
  tauto

lemma castStep_preserves (db : DB) (r : String × Vote)
    (h : ∀ e u, votesFor db.votes e u ≤ 1) :
    ∀ e u, votesFor (castStep db r).votes e u ≤ 1 := by
  intro e u
  unfold castStep
  rcases hins : insertVote db r.1 r.2 with db2 | db2
  · exact h e u
  · unfold insertVote at hins
    split at hins
    · exact absurd hins (by simp)
    · split at hins
      · exact absurd hins (by simp)
      · rename_i hpol huniq
        rw [Bool.not_eq_true', Bool.not_eq_false] at huniq
        have hv : db2.votes = db.votes ++ [r.2] := by
          cases hins
          rfl
        rw [hv, votesFor_append_single]
        by_cases hc : r.2.election_id = e ∧ r.2.user_id = u
        · have h0 := uniqueOk_votesFor_zero db.votes r.2 huniq
          rw [hc.1, hc.2] at h0
          simp [hc, h0]
        · simpa [hc] using h e u

/-- Claim C1: for every voter and every election, at most one Vote row
with that (election_id, user_id) exists, and this is preserved by any
serialized sequence of vote-cast attempts (concurrent duplicate inserts
are serialized by the storage engine), because the insert enforces the
UNIQUE(election_id, user_id) constraint. -/
theorem votes_unique_per_election_voter (db : DB) (reqs : List (String × Vote))
    (h : ∀ e u, votesFor db.votes e u ≤ 1) :
    ∀ e u, votesFor (castMany db reqs).votes e u ≤ 1 := by
  induction reqs generalizing db with
  | nil => exact h
  | cons r rest ih =>
      exact ih (castStep db r) (castStep_preserves db r h)

/-- Concrete instantiation of votes_unique_per_election_voter: two
duplicate attempts by the same voter in the same election leave at most
one row per pair. -/
theorem votes_unique_per_election_voter_witness :
    votesFor (castMany
      (DB.mk [] [Election.mk "e1" "Lunch" true "a"] [] [])
      [("u1", Vote.mk "v1" "e1" "o1" "u1"),
        ("u1", Vote.mk "v2" "e1" "o2" "u1")]).votes "e1" "u1" ≤ 1 :=
  votes_unique_per_election_voter
    (DB.mk [] [Election.mk "e1" "Lunch" true "a"] [] [])
    [("u1", Vote.mk "v1" "e1" "o1" "u1"), ("u1", Vote.mk "v2" "e1" "o2" "u1")]
    (by intro e u; simp [votesFor]) "e1" "u1"

/-- Claim C2: if every stored election row with the target id is closed,
a vote insert is rejected by the insert policy and the votes table is
unchanged; moreover any successful vote insert requires the inserting
user_id to equal the authenticated id and some stored election with the
target id to be open. -/
theorem closed_election_insert_rejected (db : DB) (uid : String) (v : Vote)
    (hclosed : ∀ e ∈ db.elections, e.id = v.election_id → e.is_open = false) :
    insertVote db uid v = Except.error InsertError.policyViolation ∧
      (castStep db (uid, v)).votes = db.votes ∧
      (∀ uid2 v2 db2, insertVote db uid2 v2 = Except.ok db2 →
        uid2 = v2.user_id ∧
          ∃ e ∈ db.elections, e.id = v2.election_id ∧ e.is_open = true) := by
  have hpol : votesInsertPolicy db uid v = false := by
    simp only [votesInsertPolicy, Bool.and_eq_false_iff]
    right
    simp only [List.any_eq_false]
    intro e he
    simp only [Bool.and_eq_true, beq_iff_eq, not_and]
    intro hid
    simp [hclosed e he hid]
  have herr : insertVote db uid v = Except.error InsertError.policyViolation := by
    simp [insertVote, hpol]
  refine ⟨herr, ?_, ?_⟩
  · simp [castStep, herr]
  · intro uid2 v2 db2 hok
    unfold insertVote at hok
    split at hok
    · exact absurd hok (by simp)
    · rename_i hpol2
      rw [Bool.not_eq_true', Bool.not_eq_false] at hpol2
      simp only [votesInsertPolicy, Bool.and_eq_true, beq_iff_eq,
        List.any_eq_true] at hpol2
      obtain ⟨huid, e, he, heq⟩ := hpol2
      exact ⟨huid, e, he, heq.1, heq.2⟩

/-- Concrete instantiation of closed_election_insert_rejected: inserting
into a closed election fails with a policy violation and writes nothing. -/
theorem closed_election_insert_rejected_witness :
    insertVote (DB.mk [] [Election.mk "e1" "Lunch" false "a"] [] []) "u1"
        (Vote.mk "v1" "e1" "o1" "u1") =
      Except.error InsertError.policyViolation ∧
      (castStep (DB.mk [] [Election.mk "e1" "Lunch" false "a"] [] [])
          ("u1", Vote.mk "v1" "e1" "o1" "u1")).votes =
        (DB.mk [] [Election.mk "e1" "Lunch" false "a"] [] []).votes ∧
      (∀ uid2 v2 db2,
        insertVote (DB.mk [] [Election.mk "e1" "Lunch" false "a"] [] []) uid2 v2 =
            Except.ok db2 →
          uid2 = v2.user_id ∧
            ∃ e ∈ (DB.mk [] [Election.mk "e1" "Lunch" false "a"] [] []).elections,
              e.id = v2.election_id ∧ e.is_open = true) :=
  closed_election_insert_rejected
    (DB.mk [] [Election.mk "e1" "Lunch" false "a"] [] [])
    "u1" (Vote.mk "v1" "e1" "o1" "u1")
    (by intro e he hid; simp at he; simp [he])

/-!
Client-side tally (ElectionResults.fetchResults, LiveVoteCounter.fetchVoteData,
VotingAnalytics.fetchAnalytics) and the leader computation.
-/

/-- One entry of the client-side results state: option_id, option_name,
vote_count (VoteCount in ElectionResults, VoteData in LiveVoteCounter). -/
structure VoteCount where
  option_id : String
  option_name : String
  vote_count : Nat
deriving DecidableEq, Repr

/-- The per-option count query: number of vote rows with option_id equal
to the given option. -/
def countVotesFor (votes : List Vote) (optId : String) : Nat :=
  (votes.filter fun v => v.option_id == optId).length

/-- The full recompute performed on every fetch: for each option, in
retrieval order, its id, name, and vote count. -/
def fetchVoteData (options : List Opt) (votes : List Vote) : List VoteCount :=
  options.map fun o => VoteCount.mk o.id o.name (countVotesFor votes o.id)

/-- totalVotes as computed by the client: the counts summed with
reduce((sum, item) => sum + item.vote_count, 0). -/
def totalVotes (results : List VoteCount) : Nat :=
  results.foldl (fun sum item => sum + item.vote_count) 0

/-- The displayed percentage: total > 0 ? (vote_count / total) * 100 : 0,
in exact rational arithmetic. -/
def percentage (voteCount total : Nat) : ℚ :=
  if total > 0 then ((voteCount : ℚ) / (total : ℚ)) * 100 else 0

lemma foldl_add_acc (l : List VoteCount) (a : Nat) :
    l.foldl (fun sum item => sum + item.vote_count) a =
      a + (l.map VoteCount.vote_count).sum := by
  induction l generalizing a with
  | nil => simp
  | cons x xs ih =>
      simp only [List.foldl_cons, List.map_cons, List.sum_cons, ih]
      omega

lemma totalVotes_eq_sum (results : List VoteCount) :
    totalVotes results = (results.map VoteCount.vote_count).sum := by
  simpa using foldl_add_acc results 0

lemma mem_le_totalVotes (results : List VoteCount) (r : VoteCount)
    (hr : r ∈ results) : r.vote_count ≤ totalVotes results := by
  rw [totalVotes_eq_sum]
  exact List.single_le_sum (fun x _ => Nat.zero_le x) _
    (List.mem_map_of_mem VoteCount.vote_count hr)

/-- Claim C3: every reported percentage lies in [0, 100], it equals
voteCount / totalVotes * 100 when totalVotes is positive, and it is 0
when totalVotes = 0 (no division by zero). -/
theorem tally_percentage_bounds (options : List Opt) (votes : List Vote)
    (r : VoteCount) (hr : r ∈ fetchVoteData options votes) :
    0 ≤ percentage r.vote_count (totalVotes (fetchVoteData options votes)) ∧
      percentage r.vote_count (totalVotes (fetchVoteData options votes)) ≤ 100 ∧
      (totalVotes (fetchVoteData options votes) = 0 →
        percentage r.vote_count (totalVotes (fetchVoteData options votes)) = 0) ∧
      (0 < totalVotes (fetchVoteData options votes) →
        percentage r.vote_count (totalVotes (fetchVoteData options votes)) =
          (r.vote_count : ℚ) / (totalVotes (fetchVoteData options votes) : ℚ) * 100) := by
  set t := totalVotes (fetchVoteData options votes) with ht
  have hle : r.vote_count ≤ t := mem_le_totalVotes _ r hr
  by_cases hpos : 0 < t
  · have htQ : (0 : ℚ) < (t : ℚ) := by exact_mod_cast hpos
    refine ⟨?_, ?_, ?_, ?_⟩
    · rw [percentage, if_pos hpos]
      positivity
    · rw [percentage, if_pos hpos]
      have hratio : (r.vote_count : ℚ) / (t : ℚ) ≤ 1 := by
        rw [div_le_one htQ]
        exact_mod_cast hle
      calc (r.vote_count : ℚ) / (t : ℚ) * 100 ≤ 1 * 100 := by
            exact mul_le_mul_of_nonneg_right hratio (by norm_num)
        _ = 100 := by norm_num
    · intro h0
      omega
    · intro _
      rw [percentage, if_pos hpos]
  · have h0 : t = 0 := by omega
    refine ⟨?_, ?_, ?_, ?_⟩
    · simp [percentage, h0]
    · simp [percentage, h0]
    · intro _
      simp [percentage, h0]
    · intro hc
      omega

/-- Concrete instantiation of tally_percentage_bounds on a two-option
election with one vote. -/
theorem tally_percentage_bounds_witness :
    0 ≤ percentage (VoteCount.mk "o1" "Pizza" 1).vote_count
        (totalVotes (fetchVoteData
          [Opt.mk "o1" "e1" "Pizza", Opt.mk "o2" "e1" "Sushi"]
          [Vote.mk "v1" "e1" "o1" "u1"])) ∧
      percentage (VoteCount.mk "o1" "Pizza" 1).vote_count
        (totalVotes (fetchVoteData
          [Opt.mk "o1" "e1" "Pizza", Opt.mk "o2" "e1" "Sushi"]
          [Vote.mk "v1" "e1" "o1" "u1"])) ≤ 100 ∧
      (totalVotes (fetchVoteData
          [Opt.mk "o1" "e1" "Pizza", Opt.mk "o2" "e1" "Sushi"]
          [Vote.mk "v1" "e1" "o1" "u1"]) = 0 →
        percentage (VoteCount.mk "o1" "Pizza" 1).vote_count
          (totalVotes (fetchVoteData
            [Opt.mk "o1" "e1" "Pizza", Opt.mk "o2" "e1" "Sushi"]
            [Vote.mk "v1" "e1" "o1" "u1"])) = 0) ∧
      (0 < totalVotes (fetchVoteData
          [Opt.mk "o1" "e1" "Pizza", Opt.mk "o2" "e1" "Sushi"]
          [Vote.mk "v1" "e1" "o1" "u1"]) →
        percentage (VoteCount.mk "o1" "Pizza" 1).vote_count
          (totalVotes (fetchVoteData
            [Opt.mk "o1" "e1" "Pizza", Opt.mk "o2" "e1" "Sushi"]
            [Vote.mk "v1" "e1" "o1" "u1"])) =
          ((VoteCount.mk "o1" "Pizza" 1).vote_count : ℚ) /
            (totalVotes (fetchVoteData
              [Opt.mk "o1" "e1" "Pizza", Opt.mk "o2" "e1" "Sushi"]
              [Vote.mk "v1" "e1" "o1" "u1"]) : ℚ) * 100) :=
  tally_percentage_bounds
    [Opt.mk "o1" "e1" "Pizza", Opt.mk "o2" "e1" "Sushi"]
    [Vote.mk "v1" "e1" "o1" "u1"]
    (VoteCount.mk "o1" "Pizza" 1)
    (by decide)

/-- The initial accumulator of the leader reduce in LiveVoteCounter (the
winner reduce in ElectionResults differs only in omitting option_id). -/
def leaderInit : VoteCount := VoteCount.mk "" "" 0

/-- leader / winner as computed by the client:
reduce((prev, current) => prev.vote_count > current.vote_count ? prev : current, leaderInit). -/
def leader (voteData : List VoteCount) : VoteCount :=
  voteData.foldl
    (fun prev current =>
      if prev.vote_count > current.vote_count then prev else current)
    leaderInit

/-- Maximum vote count occurring in a result list (0 for an empty list). -/
def maxCount (voteData : List VoteCount) : Nat :=
  voteData.foldl (fun m r => max m r.vote_count) 0

/-- Stated from the spec's words: the first option in retrieval order
whose vote count equals the maximum vote count. -/
def firstWithMax (voteData : List VoteCount) : Option VoteCount :=
  (voteData.filter fun r => r.vote_count == maxCount voteData).head?

/-- The last option in retrieval order whose vote count equals the
maximum vote count. -/
def lastWithMax (voteData : List VoteCount) : Option VoteCount :=
  (voteData.filter fun r => r.vote_count == maxCount voteData).getLast?

/-- Claim C4 counterexample: with options A(3 votes) then B(3 votes) in
retrieval order, the code reports B as leader, while the first option
with the maximum count is A. -/
theorem leader_tiebreak_counterexample :
    leader [VoteCount.mk "a" "A" 3, VoteCount.mk "b" "B" 3] =
        VoteCount.mk "b" "B" 3 ∧
      firstWithMax [VoteCount.mk "a" "A" 3, VoteCount.mk "b" "B" 3] =
        some (VoteCount.mk "a" "A" 3) ∧
      VoteCount.mk "b" "B" 3 ≠ VoteCount.mk "a" "A" 3 := by
  refine ⟨rfl, rfl, ?_⟩
  decide

lemma leader_append (l : List VoteCount) (x : VoteCount) :
    leader (l ++ [x]) =
      if (leader l).vote_count > x.vote_count then leader l else x := by
  simp [leader, List.foldl_append]

lemma maxCount_append (l : List VoteCount) (x : VoteCount) :
    maxCount (l ++ [x]) = max (maxCount l) x.vote_count := by
  simp [maxCount, List.foldl_append]

/-- Claim C4 amended: for a non-empty result list, the reported leader
attains the maximum vote count and is the LAST option in retrieval order
among those attaining it (under a tie the later-retrieved option wins). -/
theorem leader_is_last_max (voteData : List VoteCount) (h : voteData ≠ []) :
    (leader voteData).vote_count = maxCount voteData ∧
      some (leader voteData) = lastWithMax voteData := by
  induction voteData using List.reverseRecOn with
  | nil => exact absurd rfl h
  | append_singleton l x ih =>
      rcases eq_or_ne l [] with hl | hl
      · subst hl
        constructor
        · simp [leader, maxCount, leaderInit]
        · simp [leader, leaderInit, lastWithMax, maxCount]
      · obtain ⟨ihc, ihl⟩ := ih hl
        by_cases hlt : x.vote_count < maxCount l
        · have hmax : maxCount (l ++ [x]) = maxCount l := by
            rw [maxCount_append]
            omega
          have hld : leader (l ++ [x]) = leader l := by
            rw [leader_append, if_pos (by omega)]
          have hfil : (l ++ [x]).filter
              (fun r => r.vote_count == maxCount (l ++ [x])) =
              l.filter (fun r => r.vote_count == maxCount l) := by
            rw [hmax, List.filter_append]
            have hne : (x.vote_count == maxCount l) = false := by
              simp only [beq_eq_false_iff_ne, ne_eq]
              omega
            have : [x].filter (fun r => r.vote_count == maxCount l) = [] := by
              simp [List.filter, hne]
            rw [this, List.append_nil]
          constructor
          · rw [hld, hmax]
            exact ihc
          · rw [hld, lastWithMax, hfil]
            exact ihl
        · have hmax : maxCount (l ++ [x]) = x.vote_count := by
            rw [maxCount_append]
            omega
          have hld : leader (l ++ [x]) = x := by
            rw [leader_append, if_neg (by omega)]
          have hfil : (l ++ [x]).filter
              (fun r => r.vote_count == maxCount (l ++ [x])) =
              (l.filter fun r => r.vote_count == x.vote_count) ++ [x] := by
            rw [hmax, List.filter_append]
            congr 1
            simp [List.filter]
          constructor
          · rw [hld, hmax]
          · rw [hld, lastWithMax, hfil, List.getLast?_concat]

/-- Concrete instantiation of leader_is_last_max on the tied two-option
list: the leader is the tied option retrieved last. -/
theorem leader_is_last_max_witness :
    (leader [VoteCount.mk "a" "A" 3, VoteCount.mk "b" "B" 3]).vote_count =
        maxCount [VoteCount.mk "a" "A" 3, VoteCount.mk "b" "B" 3] ∧
      some (leader [VoteCount.mk "a" "A" 3, VoteCount.mk "b" "B" 3]) =
        lastWithMax [VoteCount.mk "a" "A" 3, VoteCount.mk "b" "B" 3] :=
  leader_is_last_max [VoteCount.mk "a" "A" 3, VoteCount.mk "b" "B" 3] (by decide)

/-- The onInsert handler of the realtime subscription in LiveVoteCounter:
increment the count of the item whose option_id matches the new vote,
leaving the others unchanged (totalVotes is incremented separately). -/
def applyVoteInsert (voteData : List VoteCount) (newVote : Vote) : List VoteCount :=
  voteData.map fun item =>
    if item.option_id == newVote.option_id then
      { item with vote_count := item.vote_count + 1 }
    else item

lemma countVotesFor_append (votes : List Vote) (v : Vote) (optId : String) :
    countVotesFor (votes ++ [v]) optId =
      countVotesFor votes optId + (if v.option_id = optId then 1 else 0) := by
  by_cases h : v.option_id = optId
  · simp [countVotesFor, List.filter_append, List.filter, h]
  · have hne : (v.option_id == optId) = false := by
      simpa using h
    simp [countVotesFor, List.filter_append, List.filter, hne, h]

lemma sum_counts_append (options : List Opt) (votes : List Vote) (v : Vote) :
    (options.map fun o => countVotesFor (votes ++ [v]) o.id).sum =
      (options.map fun o => countVotesFor votes o.id).sum +
        (options.filter fun o => o.id == v.option_id).length := by
  induction options with
  | nil => simp
  | cons o os ih =>
      rw [List.map_cons, List.sum_cons, List.map_cons, List.sum_cons,
        List.filter_cons, countVotesFor_append]
      by_cases h : o.id = v.option_id
      · have hb : (o.id == v.option_id) = true := by simpa using h
        rw [hb, if_pos rfl, if_pos h.symm, List.length_cons]
        omega
      · have hb : (o.id == v.option_id) = false := by simpa using h
        rw [hb, if_neg (fun hc => h hc.symm)]
        simp only [Bool.false_eq_true, if_false]
        omega

/-- Claim C6: handling a realtime INSERT notification from a state equal
to the authoritative recompute yields exactly the full recompute over
the votes extended with the new vote, and the incremented total equals
the recomputed total (the new vote's option occurs exactly once in the
retrieved option list). -/
theorem realtime_insert_matches_recompute (options : List Opt)
    (votes : List Vote) (v : Vote)
    (hopt : (options.filter fun o => o.id == v.option_id).length = 1) :
    applyVoteInsert (fetchVoteData options votes) v =
        fetchVoteData options (votes ++ [v]) ∧
      totalVotes (fetchVoteData options (votes ++ [v])) =
        totalVotes (fetchVoteData options votes) + 1 := by
  constructor
  · simp only [applyVoteInsert, fetchVoteData, List.map_map]
    apply List.map_congr_left
    intro o _
    simp only [Function.comp]
    by_cases h : o.id = v.option_id
    · have hb : (o.id == v.option_id) = true := by simpa using h
      simp only [hb, if_pos rfl, countVotesFor_append, h, if_pos rfl]
      simp [h]
    · have hb : (o.id == v.option_id) = false := by simpa using h
      have h2 : ¬v.option_id = o.id := fun hc => h hc.symm
      simp [hb, countVotesFor_append, h2]
  · rw [totalVotes_eq_sum, totalVotes_eq_sum]
    have hmap : ∀ vs : List Vote,
        List.map VoteCount.vote_count (fetchVoteData options vs) =
          options.map fun o => countVotesFor vs o.id := by
      intro vs
      simp [fetchVoteData, List.map_map, Function.comp]
    rw [hmap, hmap, sum_counts_append, hopt]

/-- Concrete instantiation of realtime_insert_matches_recompute: a new
vote for Sushi applied to the state recomputed for one Pizza vote. -/
theorem realtime_insert_matches_recompute_witness :
    applyVoteInsert (fetchVoteData
          [Opt.mk "o1" "e1" "Pizza", Opt.mk "o2" "e1" "Sushi"]
          [Vote.mk "v1" "e1" "o1" "u1"])
        (Vote.mk "v2" "e1" "o2" "u2") =
        fetchVoteData [Opt.mk "o1" "e1" "Pizza", Opt.mk "o2" "e1" "Sushi"]
          ([Vote.mk "v1" "e1" "o1" "u1"] ++ [Vote.mk "v2" "e1" "o2" "u2"]) ∧
      totalVotes (fetchVoteData [Opt.mk "o1" "e1" "Pizza", Opt.mk "o2" "e1" "Sushi"]
          ([Vote.mk "v1" "e1" "o1" "u1"] ++ [Vote.mk "v2" "e1" "o2" "u2"])) =
        totalVotes (fetchVoteData [Opt.mk "o1" "e1" "Pizza", Opt.mk "o2" "e1" "Sushi"]
          [Vote.mk "v1" "e1" "o1" "u1"]) + 1 :=
  realtime_insert_matches_recompute
    [Opt.mk "o1" "e1" "Pizza", Opt.mk "o2" "e1" "Sushi"]
    [Vote.mk "v1" "e1" "o1" "u1"]
    (Vote.mk "v2" "e1" "o2" "u2")
    (by decide)

/-!
Vote-cast handlers: confirmVote in VotingInterface.tsx and handleVote on
the Elections page, and the submission-control state of VotingInterface.
-/

/-- Result of the remote vote insert as seen by the client handlers. -/
inductive InsertOutcome where
  | ok
  | uniqueViolation
  | otherError
deriving DecidableEq, Repr

/-- The user-visible outcome surfaced by the vote-cast handlers. -/
inductive ToastMsg where
  | alreadyVoted
  | voteRecorded
  | recordError
  | castSuccess
  | castError
deriving DecidableEq, Repr

/-- handleVote of the Elections page: the "Already Voted" toast is shown
only when the advisory local pre-check (the userVotes set) already
contains the election, in which case no insert happens; otherwise exactly
one insert is performed and the catch block shows the generic "Failed to
record your vote" toast on any insert error. The result is the toast
shown and the number of insert attempts performed. -/
def handleVote (alreadyVotedLocally : Bool) (res : InsertOutcome) :
    ToastMsg × Nat :=
  if alreadyVotedLocally then (ToastMsg.alreadyVoted, 0)
  else
    match res with
    | .ok => (ToastMsg.voteRecorded, 1)
    | .uniqueViolation => (ToastMsg.recordError, 1)
    | .otherError => (ToastMsg.recordError, 1)

/-- confirmVote of VotingInterface: exactly one insert; a success toast
on success and the generic "Failed to cast vote. Please try again." toast
on any insert error; the insert is never retried. -/
def confirmVote (res : InsertOutcome) : ToastMsg × Nat :=
  match res with
  | .ok => (ToastMsg.castSuccess, 1)
  | .uniqueViolation => (ToastMsg.castError, 1)
  | .otherError => (ToastMsg.castError, 1)

/-- Claim C5 counterexample: a voter who loses the concurrent race (the
local pre-check saw no vote, the insert fails with the uniqueness
violation) is shown the generic error toast of each handler, not an
"already voted" outcome. -/
theorem duplicate_vote_generic_error_counterexample :
    (handleVote false InsertOutcome.uniqueViolation).1 = ToastMsg.recordError ∧
      (confirmVote InsertOutcome.uniqueViolation).1 = ToastMsg.castError ∧
      (handleVote false InsertOutcome.uniqueViolation).1 ≠ ToastMsg.alreadyVoted ∧
      (confirmVote InsertOutcome.uniqueViolation).1 ≠ ToastMsg.alreadyVoted := by
  decide

/-- Claim C5 amended: the "already voted" outcome is surfaced only by the
advisory local pre-check, which performs no insert; when the insert
itself fails — uniqueness violation included — each handler surfaces its
generic error toast, distinct from the already-voted outcome; in every
path at most one insert is attempted, never a retry. -/
theorem duplicate_vote_outcome (res : InsertOutcome)
    (hres : res ≠ InsertOutcome.ok) :
    handleVote true res = (ToastMsg.alreadyVoted, 0) ∧
      (handleVote false res).1 = ToastMsg.recordError ∧
      (handleVote false res).2 = 1 ∧
      (confirmVote res).1 = ToastMsg.castError ∧
      (confirmVote res).2 = 1 ∧
      ToastMsg.recordError ≠ ToastMsg.alreadyVoted ∧
      ToastMsg.castError ≠ ToastMsg.alreadyVoted := by
  cases res with
  | ok => exact absurd rfl hres
  | uniqueViolation => decide
  | otherError => decide

/-- Concrete instantiation of duplicate_vote_outcome at the uniqueness
violation outcome. -/
theorem duplicate_vote_outcome_witness :
    handleVote true InsertOutcome.uniqueViolation = (ToastMsg.alreadyVoted, 0) ∧
      (handleVote false InsertOutcome.uniqueViolation).1 = ToastMsg.recordError ∧
      (handleVote false InsertOutcome.uniqueViolation).2 = 1 ∧
      (confirmVote InsertOutcome.uniqueViolation).1 = ToastMsg.castError ∧
      (confirmVote InsertOutcome.uniqueViolation).2 = 1 ∧
      ToastMsg.recordError ≠ ToastMsg.alreadyVoted ∧
      ToastMsg.castError ≠ ToastMsg.alreadyVoted :=
  duplicate_vote_outcome InsertOutcome.uniqueViolation (by decide)

/-- The VotingInterface state relevant to submission control. -/
structure VoteUI where
  isVoting : Bool
  hasVoted : Bool
  is_open : Bool
  showConfirmDialog : Bool
  selectedOption : Option String
  pending : Nat
deriving DecidableEq, Repr

/-- Browser event-loop events relevant to vote submission. -/
inductive UIEvent where
  | clickOption (optId : String)
  | clickConfirm
  | settleSuccess
  | settleFailure
deriving DecidableEq, Repr

/-- One event-loop step of VotingInterface: an option button click is
ignored while the button is disabled (hasVoted, a closed election, or
isVoting); the confirm action is ignored while disabled (isVoting);
confirming starts exactly one insert request and raises isVoting; the
request settling lowers isVoting (marking hasVoted on success). -/
def uiStep (s : VoteUI) (e : UIEvent) : VoteUI :=
  match e with
  | .clickOption optId =>
      if s.hasVoted || !s.is_open || s.isVoting then s
      else { s with selectedOption := some optId, showConfirmDialog := true }
  | .clickConfirm =>
      if s.isVoting then s
      else
        match s.selectedOption with
        | none => s
        | some _ => { s with isVoting := true, pending := s.pending + 1 }
  | .settleSuccess =>
      if s.pending = 0 then s
      else { s with pending := s.pending - 1, isVoting := false,
                    hasVoted := true, showConfirmDialog := false }
  | .settleFailure =>
      if s.pending = 0 then s
      else { s with pending := s.pending - 1, isVoting := false }

/-- The component's mount state: not voting, no outstanding request, no
selection, dialog closed. -/
def uiInit (hasVoted flagOpen : Bool) : VoteUI :=
  VoteUI.mk false hasVoted flagOpen false none 0

/-- Submission-control invariant: never more than one outstanding insert
request, and the pending indicator isVoting is displayed exactly while a
request is outstanding. -/
def uiInv (s : VoteUI) : Prop :=
  s.pending ≤ 1 ∧ (s.isVoting = true ↔ s.pending = 1)

lemma uiStep_preserves_inv (s : VoteUI) (e : UIEvent) (h : uiInv s) :
    uiInv (uiStep s e) := by
  obtain ⟨h1, h2⟩ := h
  cases e with
  | clickOption optId =>
      simp only [uiStep]
      split
      · exact ⟨h1, h2⟩
      · exact ⟨h1, h2⟩
  | clickConfirm =>
      simp only [uiStep]
      split
      · exact ⟨h1, h2⟩
      · rename_i hv
        rw [Bool.not_eq_true] at hv
        have hp : s.pending = 0 := by
          rw [hv] at h2
          simp only [Bool.false_eq_true, false_iff] at h2
          omega
        cases hsel : s.selectedOption with
        | none => exact ⟨h1, h2⟩
        | some o =>
            constructor
            · simp [hp]
            · simp [hp]
  | settleSuccess =>
      simp only [uiStep]
      split
      · exact ⟨h1, h2⟩
      · rename_i hp
        constructor
        · simp only
          omega
        · simp only [Bool.false_eq_true, false_iff]
          omega
  | settleFailure =>
      simp only [uiStep]
      split
      · exact ⟨h1, h2⟩
      · rename_i hp
        constructor
        · simp only
          omega
        · simp only [Bool.false_eq_true, false_iff]
          omega

lemma uiRun_inv (evs : List UIEvent) :
    ∀ s : VoteUI, uiInv s → uiInv (evs.foldl uiStep s) := by
  induction evs with
  | nil => exact fun s hs => hs
  | cons e rest ih =>
      exact fun s hs => ih (uiStep s e) (uiStep_preserves_inv s e hs)

/-- Claim C7: from the mount state, any sequence of event-loop events
keeps at most one insert request outstanding, with the isVoting pending
indicator shown exactly while one is; moreover, in any state whose
pending indicator is raised, both the option buttons and the confirm
action are inert, so a second insert can never be initiated before the
first settles. -/
theorem voting_pending_no_double_submit (hasVoted flagOpen : Bool)
    (evs : List UIEvent) :
    uiInv (evs.foldl uiStep (uiInit hasVoted flagOpen)) ∧
      (∀ s : VoteUI, uiStep { s with isVoting := true } UIEvent.clickConfirm =
        { s with isVoting := true }) ∧
      (∀ (s : VoteUI) (o : String),
        uiStep { s with isVoting := true } (UIEvent.clickOption o) =
          { s with isVoting := true }) := by
  refine ⟨?_, ?_, ?_⟩
  · apply uiRun_inv
    constructor
    · simp [uiInit]
    · simp [uiInit]
  · intro s
    simp [uiStep]
  · intro s o
    simp [uiStep]

/-!
Profile creation on signup and the self-service promotion helper.
-/

/-- A row of auth.users (only the id matters to the trigger). -/
structure AuthUser where
  id : String
deriving DecidableEq, Repr

/-- handle_new_user(): the body of the AFTER INSERT trigger on
auth.users — INSERT INTO public.profiles (user_id, role) VALUES
(NEW.id, 'voter'). -/
def handle_new_user (profiles : List Profile) (newUser : AuthUser) :
    List Profile :=
  profiles ++ [Profile.mk newUser.id Role.voter]

/-- Establishing a new identity: the auth user row is inserted and the
on_auth_user_created trigger fires handle_new_user. -/
def createUser (db : DB) (u : AuthUser) : DB :=
  { db with profiles := handle_new_user db.profiles u }

lemma find?_append_of_all_false {α : Type} (l1 l2 : List α) (p : α → Bool)
    (h : ∀ a ∈ l1, p a = false) : (l1 ++ l2).find? p = l2.find? p := by
  induction l1 with
  | nil => rfl
  | cons a l ih =>
      rw [List.cons_append, List.find?_cons, h a (List.mem_cons_self a l)]
      exact ih fun b hb => h b (List.mem_cons_of_mem a hb)

/-- Claim C8: creating a new identity (a fresh auth user row, one with no
existing profile) automatically creates a profile for that user whose
role is voter, and the role lookup for the new user yields voter. -/
theorem new_user_profile_role_voter (db : DB) (u : AuthUser)
    (hfresh : ∀ p ∈ db.profiles, p.user_id ≠ u.id) :
    get_user_role (createUser db u) u.id = some Role.voter ∧
      ∃ p ∈ (createUser db u).profiles, p.user_id = u.id ∧ p.role = Role.voter := by
  constructor
  · rw [get_user_role]
    show ((db.profiles ++ [Profile.mk u.id Role.voter]).find?
        fun p => p.user_id == u.id).map Profile.role = some Role.voter
    rw [find?_append_of_all_false]
    · simp [List.find?]
    · intro p hp
      simpa using hfresh p hp
  · exact ⟨Profile.mk u.id Role.voter,
      List.mem_append_right _ (List.mem_singleton.mpr rfl), rfl, rfl⟩

/-- Concrete instantiation of new_user_profile_role_voter: a second user
signing up next to one existing admin gets a voter profile. -/
theorem new_user_profile_role_voter_witness :
    get_user_role (createUser (DB.mk [Profile.mk "u1" Role.admin] [] [] [])
        (AuthUser.mk "u2")) "u2" = some Role.voter ∧
      ∃ p ∈ (createUser (DB.mk [Profile.mk "u1" Role.admin] [] [] [])
          (AuthUser.mk "u2")).profiles,
        p.user_id = "u2" ∧ p.role = Role.voter :=
  new_user_profile_role_voter (DB.mk [Profile.mk "u1" Role.admin] [] [] [])
    (AuthUser.mk "u2") (by decide)

/-- USING clause governing an UPDATE of a public.profiles row issued by
uid: "Users can update their own profile" (auth.uid() = user_id) or the
later-added "Admins can update any profile". -/
def profilesUpdatePolicy (db : DB) (uid : String) (p : Profile) : Bool :=
  uid == p.user_id || get_user_role db uid == some Role.admin

/-- UPDATE public.profiles SET role = newRole WHERE user_id = target, as
executed under row-level security: exactly the rows matching the WHERE
clause and passing an UPDATE policy are modified. -/
def updateProfileRole (db : DB) (uid target : String) (newRole : Role) : DB :=
  { db with profiles := db.profiles.map fun p =>
      if p.user_id == target && profilesUpdatePolicy db uid p then
        { p with role := newRole }
      else p }

/-- promoteToAdmin of the AdminPromotionHelper in VotingAnalytics.tsx:
update profiles set role = 'admin' where user_id = the caller's own id. -/
def promoteToAdmin (db : DB) (uid : String) : DB :=
  updateProfileRole db uid uid Role.admin

/-- Claim C9: any authenticated user with a non-admin profile can invoke
the self-service promotion helper; the update passes the own-profile
policy, every profile row of that user ends with role admin, and the role
lookup afterwards yields admin. -/
theorem self_promotion_to_admin (db : DB) (uid : String) (p0 : Profile)
    (hp : p0 ∈ db.profiles) (hid : p0.user_id = uid)
    (_hrole : p0.role ≠ Role.admin) :
    (∃ p ∈ (promoteToAdmin db uid).profiles,
        p.user_id = uid ∧ p.role = Role.admin) ∧
      (∀ p ∈ (promoteToAdmin db uid).profiles,
        p.user_id = uid → p.role = Role.admin) ∧
      get_user_role (promoteToAdmin db uid) uid = some Role.admin := by
  have hown : ∀ q : Profile, q.user_id = uid →
      (q.user_id == uid && profilesUpdatePolicy db uid q) = true := by
    intro q hq
    simp [profilesUpdatePolicy, hq]
  have hall : ∀ p ∈ (promoteToAdmin db uid).profiles,
      p.user_id = uid → p.role = Role.admin := by
    intro p hmem hpid
    simp only [promoteToAdmin, updateProfileRole, List.mem_map] at hmem
    obtain ⟨q, hq, hfq⟩ := hmem
    by_cases hqid : q.user_id = uid
    · rw [hown q hqid, if_pos rfl] at hfq
      rw [← hfq]
    · have hb : (q.user_id == uid) = false := by simpa using hqid
      rw [hb, Bool.false_and, if_neg (by simp)] at hfq
      rw [← hfq] at hpid
      exact absurd hpid hqid
  have hex : ∃ p ∈ (promoteToAdmin db uid).profiles,
      p.user_id = uid ∧ p.role = Role.admin := by
    refine ⟨{ p0 with role := Role.admin }, ?_, hid, rfl⟩
    simp only [promoteToAdmin, updateProfileRole, List.mem_map]
    exact ⟨p0, hp, by rw [hown p0 hid, if_pos rfl]⟩
  refine ⟨hex, hall, ?_⟩
  obtain ⟨p, hpmem, hpid, hprole⟩ := hex
  have hsome : ((promoteToAdmin db uid).profiles.find?
      fun q => q.user_id == uid).isSome := by
    rw [List.find?_isSome]
    exact ⟨p, hpmem, by simpa using hpid⟩
  obtain ⟨r, hr⟩ := Option.isSome_iff_exists.mp hsome
  have hrmem : r ∈ (promoteToAdmin db uid).profiles :=
    List.mem_of_find?_eq_some hr
  have hrid : r.user_id = uid := by
    have := List.find?_some hr
    simpa using this
  rw [get_user_role, hr]
  simp [hall r hrmem hrid]

/-- Concrete instantiation of self_promotion_to_admin: a lone voter
promotes their own profile to admin. -/
theorem self_promotion_to_admin_witness :
    (∃ p ∈ (promoteToAdmin (DB.mk [Profile.mk "u1" Role.voter] [] [] [])
          "u1").profiles,
        p.user_id = "u1" ∧ p.role = Role.admin) ∧
      (∀ p ∈ (promoteToAdmin (DB.mk [Profile.mk "u1" Role.voter] [] [] [])
          "u1").profiles,
        p.user_id = "u1" → p.role = Role.admin) ∧
      get_user_role (promoteToAdmin (DB.mk [Profile.mk "u1" Role.voter] [] [] [])
          "u1") "u1" = some Role.admin :=
  self_promotion_to_admin (DB.mk [Profile.mk "u1" Role.voter] [] [] [])
    "u1" (Profile.mk "u1" Role.voter) (by decide) rfl (by decide)

/-!
The rate limiter hook (useRateLimit.tsx).
-/

/-- Configuration of useRateLimit. -/
structure RateLimitConfig where
  maxAttempts : Nat
  windowMs : Int
deriving DecidableEq, Repr

/-- The hook state: attempts so far and the epoch-ms of the last reset. -/
structure RateLimitState where
  attempts : Nat
  lastReset : Int
deriving DecidableEq, Repr

/-- checkRateLimit as written in useRateLimit.tsx, with Date.now() passed
explicitly: reset and allow when the window has passed; count and allow
while under the limit; otherwise refuse without touching the state. -/
def checkRateLimit (cfg : RateLimitConfig) (s : RateLimitState) (now : Int) :
    Bool × RateLimitState :=
  if now - s.lastReset > cfg.windowMs then
    (true, RateLimitState.mk 0 now)
  else if s.attempts < cfg.maxAttempts then
    (true, RateLimitState.mk (s.attempts + 1) s.lastReset)
  else
    (false, s)

/-- isLimited: state.attempts is at least maxAttempts. -/
def isLimited (cfg : RateLimitConfig) (s : RateLimitState) : Bool :=
  decide (cfg.maxAttempts ≤ s.attempts)

/-- remainingAttempts: Math.max(0, maxAttempts - attempts). -/
def remainingAttempts (cfg : RateLimitConfig) (s : RateLimitState) : Int :=
  max 0 ((cfg.maxAttempts : Int) - (s.attempts : Int))

/-- A sequence of checkRateLimit calls at the given times: the returned
booleans in order and the final state. -/
def runCalls (cfg : RateLimitConfig) (s : RateLimitState) :
    List Int → List Bool × RateLimitState
  | [] => ([], s)
  | t :: ts =>
      let r := checkRateLimit cfg s t
      let rest := runCalls cfg r.2 ts
      (r.1 :: rest.1, rest.2)

lemma runCalls_within (cfg : RateLimitConfig) (t0 : Int) (ts : List Int)
    (a : Nat) (ha : a ≤ cfg.maxAttempts)
    (hin : ∀ t ∈ ts, t - t0 ≤ cfg.windowMs) :
    (runCalls cfg (RateLimitState.mk a t0) ts).1 =
        (List.range ts.length).map (fun i => decide (a + i < cfg.maxAttempts)) ∧
      (runCalls cfg (RateLimitState.mk a t0) ts).2 =
        RateLimitState.mk (min (a + ts.length) cfg.maxAttempts) t0 := by
  induction ts generalizing a with
  | nil =>
      constructor
      · simp [runCalls]
      · simp only [runCalls, List.length_nil, Nat.add_zero]
        rw [Nat.min_eq_left ha]
  | cons t ts ih =>
      have hnotpast : ¬(t - t0 > cfg.windowMs) := by
        have := hin t (List.mem_cons_self t ts)
        omega
      by_cases hlt : a < cfg.maxAttempts
      · have hstep : checkRateLimit cfg (RateLimitState.mk a t0) t =
            (true, RateLimitState.mk (a + 1) t0) := by
          simp only [checkRateLimit]
          rw [if_neg hnotpast, if_pos hlt]
        obtain ⟨ih1, ih2⟩ := ih (a + 1) hlt
          (fun u hu => hin u (List.mem_cons_of_mem t hu))
        constructor
        · show (checkRateLimit cfg (RateLimitState.mk a t0) t).1 ::
              (runCalls cfg (checkRateLimit cfg (RateLimitState.mk a t0) t).2 ts).1 = _
          rw [hstep, ih1]
          simp only [List.length_cons, List.range_succ_eq_map, List.map_cons,
            List.map_map]
          congr 1
          · rw [eq_comm, decide_eq_true_eq]
            omega
          · apply List.map_congr_left
            intro i _
            simp only [Function.comp]
            rw [decide_eq_decide]
            omega
        · show (runCalls cfg (checkRateLimit cfg (RateLimitState.mk a t0) t).2 ts).2 = _
          rw [hstep]
          rw [ih2]
          congr 1
          simp only [List.length_cons]
          omega
      · have ha2 : a = cfg.maxAttempts := by omega
        have hstep : checkRateLimit cfg (RateLimitState.mk a t0) t =
            (false, RateLimitState.mk a t0) := by
          simp only [checkRateLimit]
          rw [if_neg hnotpast, if_neg hlt]
        obtain ⟨ih1, ih2⟩ := ih a ha
          (fun u hu => hin u (List.mem_cons_of_mem t hu))
        constructor
        · show (checkRateLimit cfg (RateLimitState.mk a t0) t).1 ::
              (runCalls cfg (checkRateLimit cfg (RateLimitState.mk a t0) t).2 ts).1 = _
          rw [hstep, ih1]
          simp only [List.length_cons, List.range_succ_eq_map, List.map_cons,
            List.map_map]
          congr 1
          · rw [eq_comm, decide_eq_false_iff_not]
            omega
          · apply List.map_congr_left
            intro i _
            simp only [Function.comp]
            rw [decide_eq_decide]
            omega
        · show (runCalls cfg (checkRateLimit cfg (RateLimitState.mk a t0) t).2 ts).2 = _
          rw [hstep, ih2]
          congr 1
          simp only [List.length_cons]
          omega

/-- Claim C10: starting a fresh window at t0, while every call stays
within windowMs of t0 the first maxAttempts calls return true and all
later calls return false; once at least maxAttempts calls were made the
state reports isLimited with zero remainingAttempts; and a call made more
than windowMs after the last reset resets the counter and returns true. -/
theorem rate_limit_window_behavior (cfg : RateLimitConfig) (t0 : Int)
    (ts : List Int) (hin : ∀ t ∈ ts, t - t0 ≤ cfg.windowMs) :
    (runCalls cfg (RateLimitState.mk 0 t0) ts).1 =
        (List.range ts.length).map (fun i => decide (i < cfg.maxAttempts)) ∧
      (runCalls cfg (RateLimitState.mk 0 t0) ts).2 =
        RateLimitState.mk (min ts.length cfg.maxAttempts) t0 ∧
      (cfg.maxAttempts ≤ ts.length →
        isLimited cfg (runCalls cfg (RateLimitState.mk 0 t0) ts).2 = true ∧
          remainingAttempts cfg (runCalls cfg (RateLimitState.mk 0 t0) ts).2 = 0) ∧
      (∀ (s : RateLimitState) (now : Int), now - s.lastReset > cfg.windowMs →
        checkRateLimit cfg s now = (true, RateLimitState.mk 0 now)) := by
  obtain ⟨h1, h2⟩ := runCalls_within cfg t0 ts 0 (Nat.zero_le _) hin
  refine ⟨by simpa using h1, by simpa using h2, ?_, ?_⟩
  · intro hle
    have hmin : min ts.length cfg.maxAttempts = cfg.maxAttempts :=
      Nat.min_eq_right hle
    constructor
    · rw [h2]
      simp only [Nat.zero_add] at h2 ⊢
      simp [isLimited, hmin]
    · rw [h2]
      simp only [Nat.zero_add, hmin, remainingAttempts]
      simp
  · intro s now hpast
    simp only [checkRateLimit]
    rw [if_pos hpast]

/-- Concrete instantiation of rate_limit_window_behavior: maxAttempts 2,
windowMs 1000, three calls inside the window. -/
theorem rate_limit_window_behavior_witness :
    (runCalls (RateLimitConfig.mk 2 1000) (RateLimitState.mk 0 0) [1, 2, 3]).1 =
        (List.range [1, 2, 3].length).map
          (fun i => decide (i < (RateLimitConfig.mk 2 1000).maxAttempts)) ∧
      (runCalls (RateLimitConfig.mk 2 1000) (RateLimitState.mk 0 0) [1, 2, 3]).2 =
        RateLimitState.mk (min [1, 2, 3].length (RateLimitConfig.mk 2 1000).maxAttempts) 0 ∧
      ((RateLimitConfig.mk 2 1000).maxAttempts ≤ [1, 2, 3].length →
        isLimited (RateLimitConfig.mk 2 1000)
            (runCalls (RateLimitConfig.mk 2 1000) (RateLimitState.mk 0 0) [1, 2, 3]).2 = true ∧
          remainingAttempts (RateLimitConfig.mk 2 1000)
            (runCalls (RateLimitConfig.mk 2 1000) (RateLimitState.mk 0 0) [1, 2, 3]).2 = 0) ∧
      (∀ (s : RateLimitState) (now : Int),
        now - s.lastReset > (RateLimitConfig.mk 2 1000).windowMs →
        checkRateLimit (RateLimitConfig.mk 2 1000) s now =
          (true, RateLimitState.mk 0 now)) :=
  rate_limit_window_behavior (RateLimitConfig.mk 2 1000) 0 [1, 2, 3] (by decide)

end ElectionSpark
